import Mathlib

set_option maxRecDepth 8000

/-!
Verification of the Request Lifecycle & Disbursement Workflow Engine of the
members-area repository: the request-id allocator (`generateRequestId`), the
cost-breakdown calculator (`calculateCostBreakdown`), the token-gated decision
state machine (the `decide` serverless handler), and the submission handler.

The embedding follows the TypeScript/JavaScript source:
  * the Netlify blob store is a string-keyed map with get/set, last write wins;
    a stored value is either a stringified sequence counter or a JSON-serialized
    request record (serialization is modelled as the identity on the structured
    record, the format being opaque per the store-adapter contract);
  * JavaScript numbers are IEEE-754 binary64; they are embedded as the exact
    rational value of the double, with every arithmetic operation followed by
    correct rounding to 53 significant bits (round to nearest, ties to even;
    overflow and subnormals do not arise for the currency amounts involved);
  * each serverless invocation runs to completion, but two invocations may
    interleave at the store get/set boundaries; the read and write phases of
    the store-mutating operations are therefore exposed as separate functions,
    the sequential operation being their composition.
-/

/-! ### JavaScript number model: exact binary64 values as rationals -/

/-- Structural binary logarithm: `natLog2Aux fuel n = ⌊log2 n⌋` whenever
`n ≤ fuel` (the fuel only bounds the recursion depth; the value halves each
step, so evaluation takes logarithmically many steps). -/
def natLog2Aux : ℕ → ℕ → ℕ
  | 0, _ => 0
  | fuel + 1, n => if n < 2 then 0 else natLog2Aux fuel (n / 2) + 1

/-- Floor of the base-2 logarithm of a natural number (0 for 0). -/
def natLog2 (n : ℕ) : ℕ := natLog2Aux n n

/-- The rational `2 ^ k` for an integer exponent `k`. -/
def pow2 (k : ℤ) : ℚ :=
  if 0 ≤ k then ((2 ^ k.toNat : ℕ) : ℚ) else 1 / ((2 ^ (-k).toNat : ℕ) : ℚ)

/-- Floor of the base-2 logarithm of a positive rational.  The candidate
computed from the bit lengths of numerator and denominator is exact or one too
large: for `a, b ≥ 1` one has `c - 1 < log2 (a / b) < c + 1` where
`c = ⌊log2 a⌋ - ⌊log2 b⌋`, so `⌊log2 (a/b)⌋ ∈ {c - 1, c}` and the comparison
`pow2 c ≤ q` selects the right one. -/
def floorLog2 (q : ℚ) : ℤ :=
  let a : ℕ := q.num.toNat
  let b : ℕ := q.den
  let c : ℤ := (natLog2 a : ℤ) - (natLog2 b : ℤ)
  if pow2 c ≤ q then c else c - 1

/-- Round a rational to the nearest integer, ties to even. -/
def roundNearestEven (m : ℚ) : ℤ :=
  let f : ℤ := Rat.floor m
  let r : ℚ := m - (f : ℚ)
  if r < 1 / 2 then f
  else if (1 : ℚ) / 2 < r then f + 1
  else if f % 2 = 0 then f else f + 1

/-- Round a rational to the nearest IEEE-754 binary64 value (53-bit
significand, round to nearest, ties to even), returned as the exact rational
value of the double.  Overflow and subnormal ranges are not modelled; every
quantity in this development lies well inside the normal range. -/
def roundDouble (q : ℚ) : ℚ :=
  if q = 0 then 0
  else
    let s : ℚ := if q < 0 then -1 else 1
    let aq : ℚ := if q < 0 then -q else q
    let e : ℤ := floorLog2 aq - 52
    let m : ℚ := aq * pow2 (-e)
    s * (roundNearestEven m : ℚ) * pow2 e

/-- IEEE-754 binary64 addition on exact values: exact sum, then rounding. -/
def fadd (x y : ℚ) : ℚ := roundDouble (x + y)

/-- Model of `parseFloat` applied to an optional numeric form field.  A field
is carried as the exact decimal value its string denotes (`none` for an
absent, empty or non-numeric string, for which `parseFloat` yields `NaN`);
`parseFloat` returns the double nearest to the decimal value.  The `NaN`
outcome is collapsed to `0` because every use site guards the result with
`|| 0` or `|| <other parse>`, and `NaN` and `0` are equally falsy. -/
def parseF : Option ℚ → ℚ
  | none => 0
  | some q => roundDouble q

/-- JavaScript `a || b` on numbers as used after `parseFloat`: the left value
unless it is falsy (`0`, `-0` or the collapsed `NaN`). -/
def jsOr (a b : ℚ) : ℚ := if a = 0 then b else a

/-- Whitespace characters stripped by `String.prototype.trim`. -/
def wsChar (c : Char) : Bool :=
  c = ' ' || c = '\t' || c = '\n' || c = '\r'

/-- Model of JavaScript `s.trim()`: strip leading and trailing whitespace. -/
def jsTrim (s : String) : String :=
  String.mk (((s.data.dropWhile wsChar).reverse.dropWhile wsChar).reverse)

/-- JavaScript `a || b` where `a` is an optional string field: `none`
(absent) and the empty string are falsy. -/
def jsOrStr (a : Option String) (b : String) : String :=
  match a with
  | none => b
  | some s => if s = "" then b else s

/-! ### Form data and cost breakdown (`calculateCostBreakdown`) -/

/-- The submitted form fields consumed by the engine.  Numeric fields carry
the exact decimal value of the submitted string, `none` when absent, empty or
non-numeric. -/
structure FormData where
  email : String
  registration_fee : Option ℚ := none
  hotel_cost : Option ℚ := none
  hotel_total : Option ℚ := none
  flight_cost : Option ℚ := none
  mileage_total : Option ℚ := none
  meals_total : Option ℚ := none
  mileage_miles : Option String := none
  mileage_needed : Bool := false
  meals_needed : Bool := false
  pay_ahead_registration : Bool := false
  pay_ahead_hotel : Bool := false
  pay_ahead_flight : Bool := false
  deriving Repr, DecidableEq

/-- Result record of `calculateCostBreakdown`. -/
structure CostBreakdown where
  registration : ℚ
  hotel : ℚ
  flight : ℚ
  mileage : ℚ
  meals : ℚ
  totalCost : ℚ
  prepaidItems : List (String × ℚ)
  prepaidTotal : ℚ
  reimbursementItems : List (String × ℚ)
  reimbursementTotal : ℚ
  deriving Repr, DecidableEq

/-- The prepaid block of `calculateCostBreakdown`: the three conditional
pushes onto `prepaidItems` and the sequential binary64 `+=` accumulation of
`prepaidTotal`, in source order. -/
def prepaidPart (data : FormData) (registration hotel flight : ℚ) :
    List (String × ℚ) × ℚ :=
  let p1 := if data.pay_ahead_registration ∧ 0 < registration then fadd 0 registration else 0
  let pi1 := if data.pay_ahead_registration ∧ 0 < registration then
    [(("Registration" : String), registration)] else []
  let p2 := if data.pay_ahead_hotel ∧ 0 < hotel then fadd p1 hotel else p1
  let pi2 := if data.pay_ahead_hotel ∧ 0 < hotel then pi1 ++ [("Hotel", hotel)] else pi1
  let p3 := if data.pay_ahead_flight ∧ 0 < flight then fadd p2 flight else p2
  let pi3 := if data.pay_ahead_flight ∧ 0 < flight then pi2 ++ [("Airfare", flight)] else pi2
  (pi3, p3)

/-- The reimbursement block of `calculateCostBreakdown`: conditional pushes
for the three non-prepaid categories followed by the unconditional mileage
and meals entries, with the sequential binary64 `+=` accumulation of
`reimbursementTotal`, in source order. -/
def reimbursementPart (data : FormData) (registration hotel flight mileage meals : ℚ) :
    List (String × ℚ) × ℚ :=
  let r1 := if ¬data.pay_ahead_registration ∧ 0 < registration then fadd 0 registration else 0
  let ri1 := if ¬data.pay_ahead_registration ∧ 0 < registration then
    [(("Registration" : String), registration)] else []
  let r2 := if ¬data.pay_ahead_hotel ∧ 0 < hotel then fadd r1 hotel else r1
  let ri2 := if ¬data.pay_ahead_hotel ∧ 0 < hotel then ri1 ++ [("Hotel", hotel)] else ri1
  let r3 := if ¬data.pay_ahead_flight ∧ 0 < flight then fadd r2 flight else r2
  let ri3 := if ¬data.pay_ahead_flight ∧ 0 < flight then ri2 ++ [("Airfare", flight)] else ri2
  let r4 := if 0 < mileage then fadd r3 mileage else r3
  let ri4 := if 0 < mileage then
    ri3 ++ [("Mileage (" ++ jsOrStr data.mileage_miles "?" ++ " mi)", mileage)] else ri3
  let r5 := if 0 < meals then fadd r4 meals else r4
  let ri5 := if 0 < meals then ri4 ++ [("Meals / Per Diem", meals)] else ri4
  (ri5, r5)

/-- Embedding of `calculateCostBreakdown` (Layout.tsx lines 106-170 and the
identical copy in the decision handler).  All additions are binary64
additions in source order: the five category amounts are derived with
`parseFloat .. || 0` fallbacks (the hotel amount falling back from
`hotel_cost` to `hotel_total`), the prepaid and reimbursement totals are
accumulated independently, and `totalCost` is the left-associated binary64
sum of the five amounts. -/
def calculateCostBreakdown (data : FormData) : CostBreakdown :=
  let registration := jsOr (parseF data.registration_fee) 0
  let hotel := jsOr (parseF data.hotel_cost) (jsOr (parseF data.hotel_total) 0)
  let flight := jsOr (parseF data.flight_cost) 0
  let mileage := if data.mileage_needed then jsOr (parseF data.mileage_total) 0 else 0
  let meals := if data.meals_needed then jsOr (parseF data.meals_total) 0 else 0
  let pp := prepaidPart data registration hotel flight
  let rp := reimbursementPart data registration hotel flight mileage meals
  { registration := registration
    hotel := hotel
    flight := flight
    mileage := mileage
    meals := meals
    totalCost := fadd (fadd (fadd (fadd registration hotel) flight) mileage) meals
    prepaidItems := pp.1
    prepaidTotal := pp.2
    reimbursementItems := rp.1
    reimbursementTotal := rp.2 }

/-- Total cost as computed by `formatRequesterEmailHtml` / `formatRequesterEmailText`
of the decision handler (part_000 lines 155-162): a `reduce` over the five
`parseFloat(..) || 0` amounts, reading the hotel amount from `hotel_cost`
only (no `hotel_total` fallback) and ignoring the `mileage_needed` /
`meals_needed` flags. -/
def requesterEmailTotalCost (formData : FormData) : ℚ :=
  let costs : List ℚ :=
    [jsOr (parseF formData.registration_fee) 0,
     jsOr (parseF formData.hotel_cost) 0,
     jsOr (parseF formData.flight_cost) 0,
     jsOr (parseF formData.mileage_total) 0,
     jsOr (parseF formData.meals_total) 0]
  costs.foldl fadd 0

/-! ### Lifecycle data model: status, request records, blob store -/

/-- The status strings the handlers ever store: `pending` at creation, and a
validated decision value at transition. -/
inductive Status where
  | pending
  | accepted
  | sent_back
  | rejected
  deriving Repr, DecidableEq

/-- A status is terminal when it is one of the three decision outcomes. -/
def Status.isTerminal : Status → Bool
  | .pending => false
  | .accepted => true
  | .sent_back => true
  | .rejected => true

/-- The request record persisted under the request id (the object stored by
the submission handler, extended by the decision handler with `decidedAt`,
`comments` and `requestId`).  Timestamps are abstract instants. -/
structure RequestData where
  formData : FormData
  token : String
  status : Status
  submittedAt : ℕ
  submittedBy : String
  decidedAt : Option ℕ := none
  comments : Option String := none
  requestId : Option String := none
  deriving Repr, DecidableEq

/-- A value in the `training-requests` blob store: either a stringified
sequence counter or a JSON-serialized request record.  Serialization is the
identity on the structured value; the handlers never store anything else. -/
inductive Blob where
  | counter (n : ℕ)
  | record (r : RequestData)
  deriving Repr, DecidableEq

/-- The blob store: a string-keyed map with last-write-wins set.  The list
holds the most recent write for a key first. -/
abbrev Store := List (String × Blob)

/-- Model of `store.get`: the most recent value written for the key. -/
def Store.get : Store → String → Option Blob
  | [], _ => none
  | (k, v) :: rest, key => if k = key then some v else Store.get rest key

/-- Model of `store.set`: overwrite the key with the value. -/
def Store.set (s : Store) (key : String) (v : Blob) : Store := (key, v) :: s

theorem Store.get_set_self (s : Store) (key : String) (v : Blob) :
    (s.set key v).get key = some v := by
  simp [Store.set, Store.get]

theorem Store.get_set_ne (s : Store) (key key' : String) (v : Blob) (h : key ≠ key') :
    (s.set key v).get key' = s.get key' := by
  simp [Store.set, Store.get, h]

/-! ### Request identifier allocator (`generateRequestId`) -/

/-- The local part of the requester email: `email.split("@")[0]`, i.e. the
characters before the first `@`, or the whole string when there is none. -/
def username (email : String) : String := String.mk (email.data.takeWhile (fun c => c ≠ '@'))

/-- The per-requester-per-day counter key `sequence-<username>-<dateStr>`. -/
def seqKey (email dateStr : String) : String :=
  "sequence-" ++ username email ++ "-" ++ dateStr

/-- The request id `<username>-<dateStr>-<sequence>`. -/
def mkId (email dateStr : String) (n : ℕ) : String :=
  username email ++ "-" ++ dateStr ++ "-" ++ Nat.repr n

/-- Read phase of `generateRequestId`: the new sequence number, namely the
stored count plus one, or `1` when the key is absent (including the catch
path).  A request record under the sequence key (impossible when sequence
keys are only ever written by the allocator itself) would make `parseInt`
return `NaN`; that outcome is modelled as `none`. -/
def allocRead (email dateStr : String) (s : Store) : Option ℕ :=
  match s.get (seqKey email dateStr) with
  | none => some 1
  | some (.counter n) => some (n + 1)
  | some (.record _) => none

/-- Write phase of `generateRequestId`: persist the new count and return the
id built from it. -/
def allocWrite (email dateStr : String) (s : Store) (n : ℕ) : Store × String :=
  (s.set (seqKey email dateStr) (.counter n), mkId email dateStr n)

/-- Embedding of `generateRequestId` (Layout.tsx lines 73-94): read the
current count, increment, write back, return `<username>-<dateStr>-<count>`.
The allocation date is passed as the pre-formatted UTC `YYYYMMDD` string. -/
def generateRequestId (email dateStr : String) (s : Store) : Option (Store × String) :=
  (allocRead email dateStr s).map (allocWrite email dateStr s)

/-- `n` sequential allocations for the same requester and date, collecting
the returned ids in order. -/
def allocN (email dateStr : String) : ℕ → Store → Option (Store × List String)
  | 0, s => some (s, [])
  | n + 1, s =>
    match generateRequestId email dateStr s with
    | none => none
    | some (s', id) =>
      match allocN email dateStr n s' with
      | none => none
      | some (s'', ids) => some (s'', id :: ids)

/-! ### Decision state machine (the `decide` handler) -/

/-- The decision strings accepted by the handler, mapped to the status they
store. -/
def parseDecision (s : String) : Option Status :=
  if s = "accepted" then some .accepted
  else if s = "sent_back" then some .sent_back
  else if s = "rejected" then some .rejected
  else none

/-- Observable responses of the decision handler. -/
inductive DecideResponse where
  | missingFields
  | invalidDecision
  | commentsRequired
  | notFound
  | invalidToken
  | alreadyProcessed (st : Status)
  | success (d : Status) (requestId : String)
  deriving Repr, DecidableEq

/-- HTTP status code of each decision response. -/
def DecideResponse.statusCode : DecideResponse → ℕ
  | .missingFields => 400
  | .invalidDecision => 400
  | .commentsRequired => 400
  | .notFound => 404
  | .invalidToken => 403
  | .alreadyProcessed _ => 400
  | .success _ _ => 200

/-- Outcome of the read/validate phase of the decision handler: an early
response, or the loaded pending record and parsed decision to commit. -/
inductive DecideStep where
  | early (resp : DecideResponse)
  | proceed (r : RequestData) (d : Status)
  deriving Repr, DecidableEq

/-- Read/validate phase of the decision handler (part_000 lines 561-618):
required fields, decision validity, comments requirement, record lookup,
token comparison, and the pending check, in source order.  A counter blob
under the request id parses as a number whose `token` member is `undefined`,
so it fails the token comparison. -/
def decideCheck (s : Store) (requestId token decision comments : String) : DecideStep :=
  if requestId = "" ∨ token = "" ∨ decision = "" then .early .missingFields
  else
    match parseDecision decision with
    | none => .early .invalidDecision
    | some d =>
      if (decision = "sent_back" ∨ decision = "rejected") ∧ jsTrim comments = "" then
        .early .commentsRequired
      else
        match s.get requestId with
        | none => .early .notFound
        | some (.counter _) => .early .invalidToken
        | some (.record r) =>
          if r.token ≠ token then .early .invalidToken
          else if r.status ≠ .pending then .early (.alreadyProcessed r.status)
          else .proceed r d

/-- The record update applied by the decision handler when it commits: set
the status to the decision, stamp `decidedAt`, store the comments and the
request id. -/
def decidedRecord (r : RequestData) (d : Status) (now : ℕ)
    (comments requestId : String) : RequestData :=
  { r with
      status := d
      decidedAt := some now
      comments := some comments
      requestId := some requestId }

/-- Write phase of the decision handler (part_000 lines 620-627): persist the
updated record and answer with the confirmation page. -/
def decideCommit (now : ℕ) (s : Store) (requestId comments : String)
    (r : RequestData) (d : Status) : Store × DecideResponse :=
  (s.set requestId (.record (decidedRecord r d now comments requestId)),
    .success d requestId)

/-- The sequential decision handler: read/validate phase followed, when it
proceeds, by the write phase on the same store.  Notification delivery
happens after the store write and never changes the response from success
(part_000 lines 629-683). -/
def decideRequest (now : ℕ) (s : Store) (requestId token decision comments : String) :
    Store × DecideResponse :=
  match decideCheck s requestId token decision comments with
  | .early resp => (s, resp)
  | .proceed r d => decideCommit now s requestId comments r d

/-- A sequence of decision calls against the same id and token, run
sequentially, collecting the responses. -/
def decideSeq (requestId token : String) :
    List (ℕ × String × String) → Store → Store × List DecideResponse
  | [], s => (s, [])
  | (t, ds, cs) :: rest, s =>
    let out := decideRequest t s requestId token ds cs
    let outs := decideSeq requestId token rest out.1
    (outs.1, out.2 :: outs.2)

/-- A decision call with arbitrary arguments. -/
structure DecideCall where
  now : ℕ
  requestId : String
  token : String
  decision : String
  comments : String
  deriving Repr, DecidableEq

/-- Run one decision call. -/
def decideCallRun (c : DecideCall) (s : Store) : Store × DecideResponse :=
  decideRequest c.now s c.requestId c.token c.decision c.comments

/-- Run a list of decision calls sequentially, keeping the final store. -/
def decideAll (cs : List DecideCall) (s : Store) : Store :=
  cs.foldl (fun s c => (decideCallRun c s).1) s

/-! ### Submission handler -/

/-- Environment of the submission handler: the configured approver and
disburser addresses, whether the email API key is configured, and the
abstract outcome of the notifier call (`some message` when
`resend.emails.send` reports an error). -/
structure SubmitEnv where
  approverEmail : Option String
  disburserEmail : Option String
  resendKeyConfigured : Bool
  sendError : Option String
  deriving Repr, DecidableEq

/-- Observable responses of the submission handler (past the method and
authentication gates). -/
inductive SubmitResponse where
  | noApprovers
  | noDisbursers
  | emailNotConfigured
  | emailFailed (details : String)
  | success (requestId : String)
  | serverError
  deriving Repr, DecidableEq

/-- HTTP status code of each submission response. -/
def SubmitResponse.statusCode : SubmitResponse → ℕ
  | .success _ => 200
  | _ => 500

/-- Whether a submission response reports success. -/
def SubmitResponse.isSuccess : SubmitResponse → Bool
  | .success _ => true
  | _ => false

/-- Embedding of the submission handler (Layout.tsx lines 402-507), after the
method and session gates: allocate the request id (writing the incremented
counter), check the approver and disburser configuration, persist the pending
record with its decision token, check the email API key, send the approver
notification, and report success only when the send reported no error.  The
decision token and submission instant are passed in (the source draws them
from `crypto.randomBytes` and the clock). -/
def submitRequest (env : SubmitEnv) (dateStr : String) (now : ℕ) (token : String)
    (userEmail : String) (s : Store) (formData : FormData) : Store × SubmitResponse :=
  match generateRequestId formData.email dateStr s with
  | none => (s, .serverError)
  | some (s1, requestId) =>
    match env.approverEmail with
    | none => (s1, .noApprovers)
    | some _ =>
      match env.disburserEmail with
      | none => (s1, .noDisbursers)
      | some _ =>
        let record : RequestData :=
          { formData := formData, token := token, status := .pending,
            submittedAt := now, submittedBy := userEmail }
        let s2 := s1.set requestId (.record record)
        if ¬env.resendKeyConfigured then (s2, .emailNotConfigured)
        else
          match env.sendError with
          | some e => (s2, .emailFailed e)
          | none => (s2, .success requestId)

/-! ### Decimal representation facts for distinctness of request ids -/

/-- Numeric value of a decimal digit character. -/
def decDigit (c : Char) : ℕ := c.toNat - 48

/-- Left fold step reading a decimal digit onto an accumulator. -/
def decFold (a : ℕ) (c : Char) : ℕ := 10 * a + decDigit c

/-- Append the decimal digits of `n` after the accumulator `a`. -/
def pushDec (a : ℕ) (n : ℕ) : ℕ :=
  if n < 10 then 10 * a + n
  else 10 * pushDec a (n / 10) + n % 10
termination_by n
decreasing_by exact Nat.div_lt_self (by omega) (by omega)

theorem decDigit_digitChar : ∀ d, d < 10 → decDigit (Nat.digitChar d) = d := by decide

theorem pushDec_lt (a : ℕ) {n : ℕ} (h : n < 10) : pushDec a n = 10 * a + n := by
  rw [pushDec, if_pos h]

theorem pushDec_ge (a : ℕ) {n : ℕ} (h : ¬n < 10) :
    pushDec a n = 10 * pushDec a (n / 10) + n % 10 := by
  rw [pushDec, if_neg h]

theorem foldl_toDigitsCore (fuel : ℕ) :
    ∀ n ds a, n < fuel →
      List.foldl decFold a (Nat.toDigitsCore 10 fuel n ds) =
        List.foldl decFold (pushDec a n) ds := by
  induction fuel with
  | zero => intro n ds a h; omega
  | succ fuel ih =>
    intro n ds a h
    rw [Nat.toDigitsCore]
    by_cases h10 : n < 10
    · have hdiv : n / 10 = 0 := Nat.div_eq_of_lt h10
      simp only [hdiv, if_pos rfl, List.foldl]
      rw [pushDec_lt a h10]
      have : decFold a (Nat.digitChar (n % 10)) = 10 * a + n := by
        rw [decFold, decDigit_digitChar (n % 10) (Nat.mod_lt n (by omega)), Nat.mod_eq_of_lt h10]
      rw [this]
    · have hdiv : n / 10 ≠ 0 := by
        intro h0; exact h10 (by omega : n < 10)
      rw [if_neg hdiv, ih (n / 10) _ a (by omega)]
      simp only [List.foldl]
      have : decFold (pushDec a (n / 10)) (Nat.digitChar (n % 10)) =
          10 * pushDec a (n / 10) + n % 10 := by
        rw [decFold, decDigit_digitChar (n % 10) (Nat.mod_lt n (by omega))]
      rw [this, pushDec_ge a h10]

theorem pushDec_zero (n : ℕ) : pushDec 0 n = n := by
  induction n using Nat.strong_induction_on with
  | _ n ih =>
    by_cases h : n < 10
    · rw [pushDec_lt 0 h]; omega
    · rw [pushDec_ge 0 h, ih (n / 10) (Nat.div_lt_self (by omega) (by omega))]
      omega

/-- Decode the decimal string produced by `Nat.repr`. -/
def natOfRepr (s : String) : ℕ := s.data.foldl decFold 0

theorem natOfRepr_repr (n : ℕ) : natOfRepr (Nat.repr n) = n := by
  have h := foldl_toDigitsCore (n + 1) n [] 0 (by omega)
  simp only [List.foldl] at h
  rw [natOfRepr, Nat.repr, Nat.toDigits, List.asString, h, pushDec_zero]

theorem repr_injective : Function.Injective Nat.repr := by
  intro a b h
  rw [← natOfRepr_repr a, ← natOfRepr_repr b, h]

theorem string_data_inj {x y : String} (h : x.data = y.data) : x = y := by
  cases x
  cases y
  exact congrArg String.mk h

theorem mkId_inj (email dateStr : String) {n m : ℕ}
    (h : mkId email dateStr n = mkId email dateStr m) : n = m := by
  apply repr_injective
  apply string_data_inj
  have hd := congrArg String.data h
  simp only [mkId, String.data_append, List.append_assoc] at hd
  exact List.append_cancel_left (List.append_cancel_left (List.append_cancel_left
    (List.append_cancel_left hd)))

/-! ### Sample data for concrete evaluations -/

/-- Failing input for the cost-total identity: a prepaid registration of 0.1
and reimbursed hotel 0.2 and flight 0.3 (decimal values with more than one
significant digit after rounding to binary64). -/
def fdFloat : FormData :=
  { email := "alice@x.org", registration_fee := some (1 / 10),
    hotel_cost := some (1 / 5), flight_cost := some (3 / 10),
    pay_ahead_registration := true }

/-- Form data with `hotel_total` set and `hotel_cost` absent. -/
def fdHotel : FormData := { email := "bob@x.org", hotel_total := some 300 }

/-- Minimal form data for lifecycle examples. -/
def fdSample : FormData := { email := "alice@x.org" }

/-- A freshly submitted pending record. -/
def recPending : RequestData :=
  { formData := fdSample, token := "tok-secret", status := .pending,
    submittedAt := 0, submittedBy := "alice@x.org" }

/-- A store holding the pending record under its request id. -/
def storePending : Store := [("alice-20250315-1", .record recPending)]

/-- The record left by the second of two racing commits: the rejected
decision has overwritten the accepted one. -/
def recRaceFinal : RequestData :=
  { recPending with
      status := .rejected
      decidedAt := some 2
      comments := some "dup"
      requestId := some "alice-20250315-1" }

/-- A submission environment whose approver and disburser are configured but
whose email API key is missing. -/
def envNoKey : SubmitEnv :=
  { approverEmail := some "approver@x.org"
    disburserEmail := some "disburser@x.org"
    resendKeyConfigured := false
    sendError := none }

/-! ### Claim theorems -/

/-- C3: FALSIFIED ON THE CODE.  `calculateCostBreakdown` accumulates
`prepaidTotal` and `reimbursementTotal` as independent binary64 sums and
`totalCost` as a third, differently associated binary64 sum, so the identity
`prepaidTotal + reimbursementTotal == totalCost` fails for amounts with more
than two decimal digits of binary significance: with registration 0.1
(prepaid), hotel 0.2 and flight 0.3 (reimbursed), the totals differ both
under JavaScript (binary64) addition and under exact addition. -/
theorem breakdown_total_float_mismatch :
    fadd (calculateCostBreakdown fdFloat).prepaidTotal
        (calculateCostBreakdown fdFloat).reimbursementTotal ≠
      (calculateCostBreakdown fdFloat).totalCost ∧
    (calculateCostBreakdown fdFloat).prepaidTotal +
        (calculateCostBreakdown fdFloat).reimbursementTotal ≠
      (calculateCostBreakdown fdFloat).totalCost := by
  constructor
  · intro h
    have h2 := congrArg Rat.num h
    revert h2
    with_unfolding_all decide
  · intro h
    have h2 := congrArg Rat.num h
    revert h2
    with_unfolding_all decide

/-- C9: the submission-time notification total
(`calculateCostBreakdown(..).totalCost`, with the `hotel_cost || hotel_total`
fallback) differs from the decision-time requester-notification total (which
reads `hotel_cost` only): witnessed by form data with `hotel_total = 300` and
no `hotel_cost`, giving 300 versus 0. -/
theorem submission_vs_decision_total_divergence :
    ∃ formData : FormData,
      (calculateCostBreakdown formData).totalCost ≠ requesterEmailTotalCost formData := by
  refine ⟨fdHotel, fun h => ?_⟩
  have h2 := congrArg Rat.num h
  revert h2
  with_unfolding_all decide

theorem parseDecision_ne_empty {ds : String} {d : Status} (h : parseDecision ds = some d) :
    ds ≠ "" := by
  intro h0
  subst h0
  simp [parseDecision] at h

theorem parseDecision_ne_pending {ds : String} {d : Status} (h : parseDecision ds = some d) :
    d ≠ .pending := by
  rw [parseDecision] at h
  split at h
  · cases h; intro hc; cases hc
  · split at h
    · cases h; intro hc; cases hc
    · split at h
      · cases h; intro hc; cases hc
      · cases h

/-- After the field, decision and comments validations pass, `decideCheck` is
determined by the record lookup, the token comparison and the pending check. -/
theorem decideCheck_after_validation (s : Store) (id tok dstr c : String) (d : Status)
    (hid : id ≠ "") (htok : tok ≠ "")
    (hd : parseDecision dstr = some d)
    (hc : (dstr = "sent_back" ∨ dstr = "rejected") → jsTrim c ≠ "") :
    decideCheck s id tok dstr c =
      match s.get id with
      | none => .early .notFound
      | some (.counter _) => .early .invalidToken
      | some (.record r) =>
        if r.token ≠ tok then .early .invalidToken
        else if r.status ≠ .pending then .early (.alreadyProcessed r.status)
        else .proceed r d := by
  rw [decideCheck]
  rw [if_neg (by
    intro hor
    rcases hor with h1 | h2 | h3
    · exact hid h1
    · exact htok h2
    · exact parseDecision_ne_empty hd h3)]
  simp only [hd]
  rw [if_neg (by
    rintro ⟨h1, h2⟩
    exact hc h1 h2)]

/-- C7 counterexample: the same wrong-token decision request gets
`invalidToken` (403) when the id exists and `notFound` (404) when it does
not, so the observable response differs with the existence of the id. -/
theorem invalid_token_reveals_existence_cex :
    (decideRequest 0 storePending "alice-20250315-1" "wrong" "accepted" "").2 =
        .invalidToken ∧
      (decideRequest 0 ([] : Store) "alice-20250315-1" "wrong" "accepted" "").2 =
        .notFound ∧
      DecideResponse.invalidToken ≠ DecideResponse.notFound := by
  refine ⟨rfl, rfl, by decide⟩

/-- C7 (amended): a decide call that passes field validation and carries a
token matching no stored record fails with `NotFound` (404) when the id is
absent and with `InvalidToken` (403) when the id exists, leaving the store
unchanged in both cases; the two failures are observably different, so the
failure mode reveals whether the id exists. -/
theorem invalid_token_distinguishes_existence (s : Store) (id tok dstr c : String)
    (d : Status) (now : ℕ)
    (hid : id ≠ "") (htok : tok ≠ "")
    (hd : parseDecision dstr = some d)
    (hc : (dstr = "sent_back" ∨ dstr = "rejected") → jsTrim c ≠ "") :
    (s.get id = none → decideRequest now s id tok dstr c = (s, .notFound)) ∧
    (∀ r, s.get id = some (.record r) → r.token ≠ tok →
      decideRequest now s id tok dstr c = (s, .invalidToken)) ∧
    DecideResponse.statusCode .notFound = 404 ∧
    DecideResponse.statusCode .invalidToken = 403 := by
  refine ⟨?_, ?_, rfl, rfl⟩
  · intro hget
    rw [decideRequest, decideCheck_after_validation s id tok dstr c d hid htok hd hc, hget]
  · intro r hget htk
    rw [decideRequest, decideCheck_after_validation s id tok dstr c d hid htok hd hc, hget]
    simp only [if_pos htk]

/-- C2: FALSIFIED ON THE CODE.  The decision handler is a plain
read-validate-then-write on the blob store, not a compare-and-swap: in the
interleaving where both of two concurrent decide calls on the same pending id
run their read phase before either write commits, both observe
`status == pending` (both checks return `proceed`), both commits return
success, and neither gets `AlreadyDecided`; the second write silently
overwrites the first decision's `status`, `decidedAt` and `comments`. -/
theorem decide_race_both_commit :
    decideCheck storePending "alice-20250315-1" "tok-secret" "accepted" "" =
        .proceed recPending .accepted ∧
      decideCheck storePending "alice-20250315-1" "tok-secret" "rejected" "dup" =
        .proceed recPending .rejected ∧
      (decideCommit 1 storePending "alice-20250315-1" "" recPending .accepted).2 =
        .success .accepted "alice-20250315-1" ∧
      (decideCommit 2
          (decideCommit 1 storePending "alice-20250315-1" "" recPending .accepted).1
          "alice-20250315-1" "dup" recPending .rejected).2 =
        .success .rejected "alice-20250315-1" ∧
      (decideCommit 2
          (decideCommit 1 storePending "alice-20250315-1" "" recPending .accepted).1
          "alice-20250315-1" "dup" recPending .rejected).1.get "alice-20250315-1" =
        some (.record recRaceFinal) := by
  refine ⟨rfl, rfl, rfl, rfl, rfl⟩

/-- C5: FALSIFIED ON THE CODE.  `generateRequestId` is a plain
read-increment-write on the sequence counter: in the interleaving where two
concurrent allocations for the same requester and date both run their read
phase on the same store before either write commits, both compute sequence 1
and return the identical id, and the final counter is 1 after both writes. -/
theorem allocate_race_duplicate_id :
    allocRead "alice@x.org" "20250315" ([] : Store) = some 1 ∧
      (allocWrite "alice@x.org" "20250315" ([] : Store) 1).2 = "alice-20250315-1" ∧
      (allocWrite "alice@x.org" "20250315"
          (allocWrite "alice@x.org" "20250315" ([] : Store) 1).1 1).2 =
        "alice-20250315-1" ∧
      (allocWrite "alice@x.org" "20250315"
          (allocWrite "alice@x.org" "20250315" ([] : Store) 1).1 1).1.get
          (seqKey "alice@x.org" "20250315") =
        some (.counter 1) := by
  refine ⟨rfl, ?_, ?_, ?_⟩ <;> decide


/-- Any sequence of validation-passing decide calls against an id whose
record is no longer pending and whose token matches leaves the store
unchanged and answers `AlreadyDecided` every time. -/
theorem decideSeq_alreadyProcessed (id tok : String) (hid : id ≠ "") (htok : tok ≠ "")
    (st : Status) :
    ∀ (calls : List (ℕ × String × String)) (s : Store) (r : RequestData),
      s.get id = some (.record r) → r.token = tok → r.status = st → st ≠ .pending →
      (∀ x ∈ calls, (∃ d, parseDecision x.2.1 = some d) ∧
        ((x.2.1 = "sent_back" ∨ x.2.1 = "rejected") → jsTrim x.2.2 ≠ "")) →
      decideSeq id tok calls s = (s, calls.map (fun _ => .alreadyProcessed st)) := by
  intro calls
  induction calls with
  | nil => intro s r _ _ _ _ _; rfl
  | cons x rest ih =>
    intro s r hget htk hst hnp hcalls
    obtain ⟨⟨d, hd⟩, hcmt⟩ := hcalls x (List.mem_cons_self x rest)
    obtain ⟨t, ds, cs⟩ := x
    have hrst : r.status ≠ Status.pending := by rw [hst]; exact hnp
    have hreq : decideRequest t s id tok ds cs = (s, .alreadyProcessed st) := by
      rw [decideRequest, decideCheck_after_validation s id tok ds cs d hid htok hd hcmt, hget]
      simp only [if_neg (not_not_intro htk), hst, if_pos hnp]
    rw [decideSeq, hreq]
    have hrec := ih s r hget htk hst hnp (fun y hy => hcalls y (List.mem_cons_of_mem _ hy))
    simp only [hrec, List.map]

/-- C1: for a stored pending request and validation-passing decide calls
whose token matches the stored token, the first call succeeds and writes the
decision, `decidedAt` and `comments`; every subsequent matching call (in
particular a retry with the identical decision and comments) answers
`AlreadyDecided` and leaves the stored record, hence `decidedAt` and
`comments`, exactly as the first call set them. -/
theorem decide_idempotent_under_retry
    (s : Store) (id tok dstr c1 : String) (r : RequestData) (d1 : Status) (t1 : ℕ)
    (hid : id ≠ "") (htok : tok ≠ "")
    (hget : s.get id = some (.record r))
    (hpend : r.status = .pending)
    (htk : r.token = tok)
    (hd : parseDecision dstr = some d1)
    (hc : (dstr = "sent_back" ∨ dstr = "rejected") → jsTrim c1 ≠ "")
    (calls : List (ℕ × String × String))
    (hcalls : ∀ x ∈ calls, (∃ d, parseDecision x.2.1 = some d) ∧
      ((x.2.1 = "sent_back" ∨ x.2.1 = "rejected") → jsTrim x.2.2 ≠ "")) :
    (decideRequest t1 s id tok dstr c1).2 = .success d1 id ∧
    (decideRequest t1 s id tok dstr c1).1.get id =
      some (.record (decidedRecord r d1 t1 c1 id)) ∧
    decideSeq id tok calls (decideRequest t1 s id tok dstr c1).1 =
      ((decideRequest t1 s id tok dstr c1).1,
        calls.map (fun _ => .alreadyProcessed d1)) := by
  have hrst : ¬r.status ≠ Status.pending := not_not_intro hpend
  have hcheck : decideCheck s id tok dstr c1 = .proceed r d1 := by
    rw [decideCheck_after_validation s id tok dstr c1 d1 hid htok hd hc, hget]
    simp only [if_neg (not_not_intro htk), if_neg hrst]
  have hreq : decideRequest t1 s id tok dstr c1 =
      (s.set id (.record (decidedRecord r d1 t1 c1 id)), .success d1 id) := by
    rw [decideRequest, hcheck]
    rfl
  refine ⟨by rw [hreq], ?_, ?_⟩
  · rw [hreq]
    exact Store.get_set_self _ _ _
  · rw [hreq]
    exact decideSeq_alreadyProcessed id tok hid htok d1 calls _ _
      (Store.get_set_self _ _ _) htk rfl (parseDecision_ne_pending hd) hcalls

/-- One allocation from a state whose sequence key is absent (count 0) or
holds the counter `k`: it writes back `k + 1` and returns the id with
sequence `k + 1`. -/
theorem generateRequestId_step (e d : String) (s : Store) (k : ℕ)
    (h : (s.get (seqKey e d) = none ∧ k = 0) ∨ s.get (seqKey e d) = some (.counter k)) :
    generateRequestId e d s =
      some (s.set (seqKey e d) (.counter (k + 1)), mkId e d (k + 1)) := by
  rcases h with ⟨hget, hk⟩ | hget
  · subst hk
    rw [generateRequestId, allocRead, hget]
    rfl
  · rw [generateRequestId, allocRead, hget]
    rfl

/-- `N` sequential allocations from a state whose sequence key is absent
(count 0) or holds the counter `k` return the ids with sequences
`k + 1, …, k + N` in order, and leave the counter at `k + N`. -/
theorem allocN_spec (e d : String) :
    ∀ (N : ℕ) (s : Store) (k : ℕ),
      (s.get (seqKey e d) = none ∧ k = 0) ∨ s.get (seqKey e d) = some (.counter k) →
      ∃ s', allocN e d N s = some (s', (List.range N).map (fun i => mkId e d (k + i + 1))) ∧
        (N = 0 → s' = s) ∧ (0 < N → s'.get (seqKey e d) = some (.counter (k + N))) := by
  intro N
  induction N with
  | zero =>
    intro s k _
    exact ⟨s, rfl, fun _ => rfl, fun h => absurd h (by omega)⟩
  | succ N ih =>
    intro s k h
    have hstep := generateRequestId_step e d s k h
    have hnext : ((s.set (seqKey e d) (.counter (k + 1))).get (seqKey e d) = none ∧
        k + 1 = 0) ∨ (s.set (seqKey e d) (.counter (k + 1))).get (seqKey e d) =
          some (.counter (k + 1)) :=
      Or.inr (Store.get_set_self _ _ _)
    obtain ⟨s', hrec, hzero, hpos⟩ := ih (s.set (seqKey e d) (.counter (k + 1))) (k + 1) hnext
    have hlist : (List.range (N + 1)).map (fun i => mkId e d (k + i + 1)) =
        mkId e d (k + 1) ::
          (List.range N).map (fun i => mkId e d (k + 1 + i + 1)) := by
      rw [List.range_succ_eq_map, List.map_cons, List.map_map]
      refine congrArg₂ _ (by rw [Nat.add_zero]) (List.map_congr_left ?_)
      intro i _
      show mkId e d (k + (i + 1) + 1) = mkId e d (k + 1 + i + 1)
      rw [show k + (i + 1) + 1 = k + 1 + i + 1 by omega]
    refine ⟨s', ?_, fun h0 => by omega, ?_⟩
    · rw [allocN, hstep]
      simp only [hrec, hlist]
    · intro _
      rcases Nat.eq_zero_or_pos N with h0 | hNpos
      · subst h0
        rw [hzero rfl, Store.get_set_self]
      · rw [hpos hNpos]
        exact congrArg _ (congrArg _ (by omega))

/-- C4: `generateRequestId` reads the count stored under
`sequence-<requesterLocalPart>-<dateStr>` (absent means 0), increments it,
writes the new count back and returns `<requesterLocalPart>-<dateStr>-<newCount>`;
hence `N` sequential allocations for the same requester and date return the
distinct ids with sequence numbers `k+1` through `k+N` in increasing order
(1 through N from a fresh state). -/
theorem allocate_sequential_spec (e d : String) (s : Store) (k N : ℕ)
    (h : (s.get (seqKey e d) = none ∧ k = 0) ∨ s.get (seqKey e d) = some (.counter k)) :
    generateRequestId e d s =
      some (s.set (seqKey e d) (.counter (k + 1)), mkId e d (k + 1)) ∧
    (∃ s', allocN e d N s =
        some (s', (List.range N).map (fun i => mkId e d (k + i + 1)))) ∧
    ((List.range N).map (fun i => mkId e d (k + i + 1))).Nodup := by
  refine ⟨generateRequestId_step e d s k h, ?_, ?_⟩
  · obtain ⟨s', hrec, _, _⟩ := allocN_spec e d N s k h
    exact ⟨s', hrec⟩
  · refine List.Nodup.map ?_ (List.nodup_range N)
    intro i j hij
    have := mkId_inj e d hij
    omega

theorem Status.isTerminal_of_ne_pending {d : Status} (h : d ≠ .pending) :
    d.isTerminal = true := by
  cases d
  · exact absurd rfl h
  all_goals rfl

/-- What must have held for the check phase to proceed: the id was stored as
a record, it was pending, the token matched, and the decision parsed. -/
theorem decideCheck_proceed_inv {s : Store} {id tok ds cs : String}
    {r : RequestData} {d : Status}
    (h : decideCheck s id tok ds cs = .proceed r d) :
    s.get id = some (.record r) ∧ r.status = .pending ∧
      parseDecision ds = some d ∧ r.token = tok := by
  rw [decideCheck] at h
  split at h
  · cases h
  · split at h
    · cases h
    · split at h
      · cases h
      · split at h
        · cases h
        · cases h
        · split at h
          · cases h
          · split at h
            · cases h
            · cases h
              exact ⟨by assumption, not_not.mp (by assumption), by assumption,
                not_not.mp (by assumption)⟩

/-- One decision call preserves the record invariant at any id: a non-pending
record has `decidedAt` set and a terminal status. -/
theorem decideCallRun_preserves (id : String) (c : DecideCall) (s : Store)
    (hs : ∀ r', s.get id = some (.record r') → r'.status ≠ .pending →
      r'.decidedAt.isSome = true ∧ r'.status.isTerminal = true) :
    ∀ r', ((decideCallRun c s).1).get id = some (.record r') → r'.status ≠ .pending →
      r'.decidedAt.isSome = true ∧ r'.status.isTerminal = true := by
  intro r' hget' hnp'
  rw [decideCallRun, decideRequest] at hget'
  rcases hchk : decideCheck s c.requestId c.token c.decision c.comments with resp | ⟨r, d⟩
  · rw [hchk] at hget'
    exact hs r' hget' hnp'
  · rw [hchk] at hget'
    obtain ⟨hg, hp, hd, htk⟩ := decideCheck_proceed_inv hchk
    by_cases hid : c.requestId = id
    · subst hid
      simp only [decideCommit, Store.get_set_self] at hget'
      cases hget'
      exact ⟨rfl, Status.isTerminal_of_ne_pending (parseDecision_ne_pending hd)⟩
    · simp only [decideCommit, Store.get_set_ne _ _ _ _ hid] at hget'
      exact hs r' hget' hnp'

/-- Any sequence of decision calls preserves the record invariant at any
id. -/
theorem decideAll_preserves (id : String) :
    ∀ (cs : List DecideCall) (s : Store),
      (∀ r', s.get id = some (.record r') → r'.status ≠ .pending →
        r'.decidedAt.isSome = true ∧ r'.status.isTerminal = true) →
      ∀ r', ((decideAll cs s).get id = some (.record r')) → r'.status ≠ .pending →
        r'.decidedAt.isSome = true ∧ r'.status.isTerminal = true := by
  intro cs
  induction cs with
  | nil => intro s hs; exact hs
  | cons c rest ih =>
    intro s hs
    exact ih (decideCallRun c s).1 (decideCallRun_preserves id c s hs)

/-- One decision call never moves the record at an id from a non-pending
status back to pending. -/
theorem decideCallRun_no_repending (id : String) (c : DecideCall) (s : Store)
    (r1 : RequestData) (hget : s.get id = some (.record r1))
    (hnp : r1.status ≠ .pending) :
    ∀ r2, ((decideCallRun c s).1).get id = some (.record r2) → r2.status ≠ .pending := by
  intro r2 hget2
  rw [decideCallRun, decideRequest] at hget2
  rcases hchk : decideCheck s c.requestId c.token c.decision c.comments with resp | ⟨r, d⟩
  · rw [hchk] at hget2
    rw [hget] at hget2
    cases hget2
    exact hnp
  · obtain ⟨hg, hp, hd, htk⟩ := decideCheck_proceed_inv hchk
    rw [hchk] at hget2
    by_cases hid : c.requestId = id
    · subst hid
      rw [hget] at hg
      cases hg
      exact absurd hp hnp
    · simp only [decideCommit, Store.get_set_ne _ _ _ _ hid] at hget2
      rw [hget] at hget2
      cases hget2
      exact hnp

/-- C6: starting from a freshly created pending record, after any sequence of
decision calls the record under the id satisfies: a non-pending status is one
of the terminal statuses and `decidedAt` is set; and no single decision call
ever moves a record at any id from a non-pending status back to pending. -/
theorem lifecycle_status_invariant (s0 : Store) (id : String) (r0 : RequestData)
    (h0 : s0.get id = some (.record r0)) (hp : r0.status = .pending)
    (cs : List DecideCall) :
    (∀ r', (decideAll cs s0).get id = some (.record r') → r'.status ≠ .pending →
      r'.decidedAt.isSome = true ∧ r'.status.isTerminal = true) ∧
    (∀ (c : DecideCall) (s : Store) (r1 : RequestData),
      s.get id = some (.record r1) → r1.status ≠ .pending →
      ∀ r2, ((decideCallRun c s).1).get id = some (.record r2) →
        r2.status ≠ .pending) := by
  constructor
  · refine decideAll_preserves id cs s0 ?_
    intro r' hget' hnp'
    rw [h0] at hget'
    cases hget'
    exact absurd hp hnp'
  · intro c s r1 hget hnp
    exact decideCallRun_no_repending id c s r1 hget hnp

/-- C8: the submission handler fails closed on notifier failure: whenever the
email API key is not configured or the notifier reports an error, the
response is a 500 error, never success. -/
theorem submit_fails_closed_on_notifier_failure
    (env : SubmitEnv) (dateStr : String) (now : ℕ) (token userEmail : String)
    (s : Store) (formData : FormData)
    (h : env.resendKeyConfigured = false ∨ env.sendError ≠ none) :
    ((submitRequest env dateStr now token userEmail s formData).2).isSuccess = false ∧
    ((submitRequest env dateStr now token userEmail s formData).2).statusCode = 500 := by
  rcases hgen : generateRequestId formData.email dateStr s with _ | ⟨s1, rid⟩ <;>
    rcases happ : env.approverEmail with _ | a <;>
    rcases hdis : env.disburserEmail with _ | b <;>
    rcases hsv : env.sendError with _ | e <;>
    rcases hkey : env.resendKeyConfigured with _ | _ <;>
    simp_all [submitRequest, SubmitResponse.isSuccess, SubmitResponse.statusCode]

/-- The pending record the submission handler persists. -/
def submittedRecord (formData : FormData) (token : String) (now : ℕ)
    (userEmail : String) : RequestData :=
  { formData := formData, token := token, status := .pending,
    submittedAt := now, submittedBy := userEmail }

/-- C10: on the submission path the incremented sequence counter and the
pending record (with its token) are persisted before the notifier is invoked,
and a notifier failure does not roll either back: after the 500 error
response, the store still holds the pending record under the new id and the
counter at `k + 1`. -/
theorem submit_persists_before_notify
    (env : SubmitEnv) (dateStr : String) (now : ℕ) (token userEmail : String)
    (s : Store) (formData : FormData) (k : ℕ) (a b : String)
    (hseq : (s.get (seqKey formData.email dateStr) = none ∧ k = 0) ∨
      s.get (seqKey formData.email dateStr) = some (.counter k))
    (happ : env.approverEmail = some a) (hdis : env.disburserEmail = some b)
    (hfail : env.resendKeyConfigured = false ∨ env.sendError ≠ none)
    (hne : mkId formData.email dateStr (k + 1) ≠ seqKey formData.email dateStr) :
    ((submitRequest env dateStr now token userEmail s formData).2).isSuccess = false ∧
    ((submitRequest env dateStr now token userEmail s formData).1).get
        (mkId formData.email dateStr (k + 1)) =
      some (.record (submittedRecord formData token now userEmail)) ∧
    ((submitRequest env dateStr now token userEmail s formData).1).get
        (seqKey formData.email dateStr) =
      some (.counter (k + 1)) := by
  have hstep := generateRequestId_step formData.email dateStr s k hseq
  have hfinish : ∀ resp : SubmitResponse, resp.isSuccess = false →
      submitRequest env dateStr now token userEmail s formData =
        (((s.set (seqKey formData.email dateStr) (.counter (k + 1))).set
            (mkId formData.email dateStr (k + 1))
            (.record (submittedRecord formData token now userEmail))), resp) →
      ((submitRequest env dateStr now token userEmail s formData).2).isSuccess = false ∧
      ((submitRequest env dateStr now token userEmail s formData).1).get
          (mkId formData.email dateStr (k + 1)) =
        some (.record (submittedRecord formData token now userEmail)) ∧
      ((submitRequest env dateStr now token userEmail s formData).1).get
          (seqKey formData.email dateStr) =
        some (.counter (k + 1)) := by
    intro resp hresp hred
    rw [hred]
    refine ⟨hresp, Store.get_set_self _ _ _, ?_⟩
    rw [Store.get_set_ne _ _ _ _ hne]
    exact Store.get_set_self _ _ _
  rcases hfail with hkey | hsend
  · refine hfinish .emailNotConfigured rfl ?_
    rw [submitRequest, hstep, happ, hdis, hkey]
    rfl
  · rcases hsv : env.sendError with _ | e
    · exact absurd hsv hsend
    · by_cases hkey : env.resendKeyConfigured
      · refine hfinish (.emailFailed e) rfl ?_
        rw [submitRequest, hstep, happ, hdis, hsv, hkey]
        rfl
      · have hkey2 : env.resendKeyConfigured = false := by
          simpa using hkey
        refine hfinish .emailNotConfigured rfl ?_
        rw [submitRequest, hstep, happ, hdis, hkey2]
        rfl

/-- Witness for the C1 theorem at a concrete pending request: the first
accepted decision succeeds and two retries answer `AlreadyDecided` leaving
the store unchanged. -/
theorem decide_idempotent_under_retry_witness :
    (decideRequest 1 storePending "alice-20250315-1" "tok-secret" "accepted" "").2 =
        .success .accepted "alice-20250315-1" ∧
      (decideRequest 1 storePending "alice-20250315-1" "tok-secret" "accepted" "").1.get
          "alice-20250315-1" =
        some (.record (decidedRecord recPending .accepted 1 "" "alice-20250315-1")) ∧
      decideSeq "alice-20250315-1" "tok-secret" [(2, "accepted", ""), (3, "rejected", "dup")]
          (decideRequest 1 storePending "alice-20250315-1" "tok-secret" "accepted" "").1 =
        ((decideRequest 1 storePending "alice-20250315-1" "tok-secret" "accepted" "").1,
          [.alreadyProcessed .accepted, .alreadyProcessed .accepted]) := by
  refine decide_idempotent_under_retry storePending "alice-20250315-1" "tok-secret" "accepted"
    "" recPending .accepted 1 (by decide) (by decide) rfl rfl rfl (by decide) (by decide)
    [(2, "accepted", ""), (3, "rejected", "dup")] ?_
  intro x hx
  simp only [List.mem_cons, List.not_mem_nil, or_false] at hx
  rcases hx with rfl | rfl
  · exact ⟨⟨.accepted, rfl⟩, by decide⟩
  · exact ⟨⟨.rejected, rfl⟩, by decide⟩

/-- Witness for the C4 theorem from a fresh store: the first allocation
writes counter 1 and two sequential allocations return the distinct ids with
sequences 1 and 2. -/
theorem allocate_sequential_spec_witness :
    generateRequestId "alice@x.org" "20250315" ([] : Store) =
        some ([("sequence-alice-20250315", .counter 1)], "alice-20250315-1") ∧
      (∃ s', allocN "alice@x.org" "20250315" 2 ([] : Store) =
          some (s', ["alice-20250315-1", "alice-20250315-2"])) ∧
      (["alice-20250315-1", "alice-20250315-2"] : List String).Nodup := by
  exact allocate_sequential_spec "alice@x.org" "20250315" [] 0 2 (Or.inl ⟨rfl, rfl⟩)

/-- Witness for the C6 theorem: after one accepted decision on a concrete
pending request the stored record is terminal with `decidedAt` set. -/
theorem lifecycle_status_invariant_witness :
    (decideAll [⟨1, "alice-20250315-1", "tok-secret", "accepted", ""⟩] storePending).get
        "alice-20250315-1" =
      some (.record (decidedRecord recPending .accepted 1 "" "alice-20250315-1")) ∧
    ((decidedRecord recPending .accepted 1 "" "alice-20250315-1").decidedAt.isSome = true ∧
      (decidedRecord recPending .accepted 1 "" "alice-20250315-1").status.isTerminal = true) := by
  have h := lifecycle_status_invariant storePending "alice-20250315-1" recPending rfl rfl
    [⟨1, "alice-20250315-1", "tok-secret", "accepted", ""⟩]
  exact ⟨rfl, h.1 _ rfl (by decide)⟩

/-- Witness for the C7 amended theorem at a concrete wrong-token call: 404
against the empty store, 403 against the store holding the record. -/
theorem invalid_token_distinguishes_existence_witness :
    decideRequest 0 ([] : Store) "alice-20250315-1" "wrong" "accepted" "" =
        (([] : Store), .notFound) ∧
      decideRequest 0 storePending "alice-20250315-1" "wrong" "accepted" "" =
        (storePending, .invalidToken) ∧
      DecideResponse.statusCode .notFound = 404 ∧
      DecideResponse.statusCode .invalidToken = 403 := by
  have h1 := invalid_token_distinguishes_existence ([] : Store) "alice-20250315-1" "wrong"
    "accepted" "" .accepted 0 (by decide) (by decide) (by decide) (by decide)
  have h2 := invalid_token_distinguishes_existence storePending "alice-20250315-1" "wrong"
    "accepted" "" .accepted 0 (by decide) (by decide) (by decide) (by decide)
  exact ⟨h1.1 rfl, h2.2.1 recPending rfl (by decide), h1.2.2.1, h1.2.2.2⟩

/-- Witness for the C8 theorem: with the email API key missing, the concrete
submission reports a 500 error, not success. -/
theorem submit_fails_closed_on_notifier_failure_witness :
    ((submitRequest envNoKey "20250315" 7 "tok-secret" "alice@x.org"
        ([] : Store) fdSample).2).isSuccess = false ∧
    ((submitRequest envNoKey "20250315" 7 "tok-secret" "alice@x.org"
        ([] : Store) fdSample).2).statusCode = 500 := by
  exact submit_fails_closed_on_notifier_failure envNoKey "20250315" 7 "tok-secret"
    "alice@x.org" [] fdSample (Or.inl rfl)

/-- Witness for the C10 theorem: after the concrete failed submission the
store still holds the pending record and the counter at 1. -/
theorem submit_persists_before_notify_witness :
    ((submitRequest envNoKey "20250315" 7 "tok-secret" "alice@x.org"
        ([] : Store) fdSample).2).isSuccess = false ∧
    ((submitRequest envNoKey "20250315" 7 "tok-secret" "alice@x.org"
        ([] : Store) fdSample).1).get "alice-20250315-1" =
      some (.record (submittedRecord fdSample "tok-secret" 7 "alice@x.org")) ∧
    ((submitRequest envNoKey "20250315" 7 "tok-secret" "alice@x.org"
        ([] : Store) fdSample).1).get "sequence-alice-20250315" =
      some (.counter 1) := by
  exact submit_persists_before_notify envNoKey "20250315" 7 "tok-secret" "alice@x.org"
    [] fdSample 0 "approver@x.org" "disburser@x.org" (Or.inl ⟨rfl, rfl⟩) rfl rfl
    (Or.inl rfl) (by decide)
